import Mathlib

/-!
Shallow embedding of the multi-tier semantic memory retrieval engine of
the papr-voice-demo repository (src/src/python/voice_server.py and
src/src/python/tool_schemas.py).

External capabilities (the CoreML embedder, the two Chroma vector
collections and the remote SDK search) are modelled as oracles supplied in
an environment: each is either an exception (the Python call raised) or a
value.  Machine floats are modelled as rationals; Python round(x, 1) is
modelled exactly as round-half-even to one decimal.  Module-level mutable
state (the cached client/embedder/collection handles and the search-history
deque) is modelled as an explicit ServerState threaded through the request
handler.
-/

namespace PaprVoice

/-- Python string truthiness: a string is falsy iff it is empty.
Used to model expressions of the form a or b over optional strings
(voice_server.py line 252: doc or metadata.get("content") or ...). -/
def truthyStr : Option String → Option String
  | some s => if s = "" then none else some s
  | none => none

/-- Python str.lower restricted to the character-wise case map. -/
def pyLower (s : String) : String := String.mk (s.data.map Char.toLower)

/-- Python str.strip: drop leading and trailing whitespace. -/
def pyStrip (s : String) : String :=
  String.mk (((s.data.dropWhile Char.isWhitespace).reverse.dropWhile
    Char.isWhitespace).reverse)

/-- Python round(x, 1): round to one decimal digit, ties to even
(bankers rounding), modelled exactly over the rationals. -/
def round1 (x : ℚ) : ℚ :=
  (((if 10 * x - ⌊10 * x⌋ < 1/2 then ⌊10 * x⌋
     else if 1/2 < 10 * x - ⌊10 * x⌋ then ⌊10 * x⌋ + 1
     else if ⌊10 * x⌋ % 2 = 0 then ⌊10 * x⌋
     else ⌊10 * x⌋ + 1) : ℤ) : ℚ) / 10

/-- One raw candidate of a Chroma collection query: the parallel entries of
documents[0], metadatas[0], distances[0], ids[0] at one index
(voice_server.py lines 243-267 and 290-314). -/
structure Candidate where
  doc : Option String
  metaContent : Option String
  metaSimilarityScore : Option ℚ
  metaTags : List String
  metaTopics : List String
  dist : Option ℚ
  id : String

/-- The content field computed by the local merge (line 252):
content = doc or metadata.get("content") or "(No content)". -/
def candidateContent (c : Candidate) : String :=
  (Option.getD ((truthyStr c.doc).orElse (fun _ => truthyStr c.metaContent))
    "(No content)")

/-- query_similarity = 1.0 - dists[idx] if dists[idx] is not None else 0.0
(lines 253 and 300).  No clamping is performed. -/
def querySimilarityOfDist : Option ℚ → ℚ
  | some d => 1 - d
  | none => 0

/-- One normalized result record.  Local-path records always carry a string
content and a tier tag; remote-path records may have absent content and
carry no tier key (the dict literal at lines 425-436 has no tier entry,
modelled as tier = none). -/
structure MemoryRecord where
  content : Option String
  query_similarity : ℚ
  relevance_score : ℚ
  tags : List String
  topics : List String
  id : String
  tier : Option Nat

/-- Normalization of one local candidate into the result dict appended at
lines 254-267 (tier0) / 301-314 (tier1). -/
def normalizeCandidate (tier : Nat) (c : Candidate) : MemoryRecord :=
  { content := some (candidateContent c)
    query_similarity := querySimilarityOfDist c.dist
    relevance_score := c.metaSimilarityScore.getD 0
    tags := c.metaTags
    topics := c.metaTopics
    id := c.id
    tier := some tier }

/-- All candidates of one tier, normalized in order. -/
def normalizeTier (tier : Nat) (cs : List Candidate) : List MemoryRecord :=
  cs.map (normalizeCandidate tier)

/-- The comparator of the merge: sort(key=query_similarity, reverse=True),
a stable descending sort (line 320). -/
def simDesc (a b : MemoryRecord) : Bool :=
  decide (b.query_similarity ≤ a.query_similarity)

/-- The latency_breakdown dicts built at lines 323-330 and 440-447. -/
structure LatencyBreakdown where
  total_ms : ℚ
  sdk_processing_ms : ℚ
  embedding_generation_ms : ℚ
  chromadb_search_ms : ℚ
  processing_overhead_ms : ℚ
  note : String

/-- Latency dict of the local fast path (lines 323-330): totals are the sum
of the measured embed and Chroma times, overhead is literally 0.0, every
figure rounded to one decimal. -/
def localLatency (embedMs chromaMs : ℚ) : LatencyBreakdown :=
  { total_ms := round1 (embedMs + chromaMs)
    sdk_processing_ms := round1 (embedMs + chromaMs)
    embedding_generation_ms := round1 embedMs
    chromadb_search_ms := round1 chromaMs
    processing_overhead_ms := 0
    note := "Local CoreML fast path" }

/-- Latency dict of the remote fallback (lines 438-447).  preMs is the wall
time from request entry to the SDK call, sdkMs the SDK call itself, midMs
the extraction work up to the overhead measurement, tailMs the remainder up
to the total measurement; the embed/search figures are the 75/25 heuristic
split of sdkMs. -/
def remoteLatency (preMs sdkMs midMs tailMs : ℚ) : LatencyBreakdown :=
  { total_ms := round1 (preMs + sdkMs + midMs + tailMs)
    sdk_processing_ms := round1 sdkMs
    embedding_generation_ms := round1 (sdkMs * (3/4))
    chromadb_search_ms := round1 (sdkMs * (1/4))
    processing_overhead_ms := round1 (preMs + midMs)
    note := "SDK search path (estimated embed/search split)" }

/-- One raw memory object of the remote SDK response (lines 398-423).
extras models pydantic_extra: none when the attribute is absent or falsy,
some v when it is a non-empty dict with v its similarity_score entry. -/
structure RemoteMem where
  extras : Option (Option ℚ)
  score : Option ℚ
  content : Option String
  metaSimilarityScore : Option ℚ
  tags : Option (List String)
  topics : Option (List String)
  id : String

/-- Lines 401-405: extras.get(similarity_score, 0.0) when the extras dict is
truthy, otherwise getattr(mem, score, 0.0). -/
def remoteQuerySimilarity (m : RemoteMem) : ℚ :=
  match m.extras with
  | some v => v.getD 0
  | none => m.score.getD 0

/-- Lines 412-416: None, empty/whitespace strings and the strings None/none
(after strip and lower) are all mapped to absent content. -/
def normalizeRemoteContent : Option String → Option String
  | none => none
  | some s =>
    if pyStrip s = "" then none
    else if pyLower (pyStrip s) = "none" then none
    else some s

/-- Normalization of one remote memory into the dict appended at 425-436.
No tier key is present in that dict. -/
def normalizeRemoteMem (m : RemoteMem) : MemoryRecord :=
  { content := normalizeRemoteContent m.content
    query_similarity := remoteQuerySimilarity m
    relevance_score := m.metaSimilarityScore.getD 0
    tags := m.tags.getD []
    topics := m.topics.getD []
    id := m.id
    tier := none }

/-- Outcome of one tier query: none models an absent collection handle,
some (Except.error _) a query (or shape-parsing) exception caught by the
per-tier handler, some (Except.ok cs) a successful query. -/
def tierCandidates : Option (Except Unit (List Candidate)) → List Candidate
  | some (Except.ok cs) => cs
  | _ => []

/-- Whether a tier query was attempted and returned (its Chroma duration was
added to the running total at lines 241 / 288). -/
def tierOk : Option (Except Unit (List Candidate)) → Bool
  | some (Except.ok _) => true
  | _ => false

/-- External-call counters used to express the fail-fast property. -/
structure CallCounts where
  embedderCalls : Nat
  collectionCalls : Nat
  remoteCalls : Nat

/-- The merge of lines 319-321: concatenate the normalized tier results,
stable-sort by descending query_similarity and truncate to maxMemories. -/
def mergedLocal (searchTier0 searchTier1 : Bool)
    (tier0Query tier1Query : Option (Except Unit (List Candidate)))
    (maxMemories : Nat) : List MemoryRecord :=
  let t0 := if searchTier0 then normalizeTier 0 (tierCandidates tier0Query)
    else []
  let t1 := if searchTier1 then normalizeTier 1 (tierCandidates tier1Query)
    else []
  ((t0 ++ t1).mergeSort simDesc).take maxMemories

/-- _perform_local_coreml_search (lines 205-334).  Raises (Except.error)
only when the embedder handle is falsy (line 219) or encode raises
(line 224).  A per-tier query failure or unexpected result shape is caught
by the per-tier except blocks (lines 269, 316) and merely skips that tier.
The merged list is stably sorted by descending query_similarity and
truncated to maxMemories (lines 320-321). -/
def performLocal (embedderAvailable : Bool) (embed : Except String Unit)
    (searchTier0 searchTier1 : Bool)
    (tier0Query tier1Query : Option (Except Unit (List Candidate)))
    (embedMs chroma0Ms chroma1Ms : ℚ) (maxMemories : Nat) :
    Except String (List MemoryRecord × LatencyBreakdown) × CallCounts :=
  if embedderAvailable = false then
    (Except.error ("Local embedder not available yet"), ⟨0, 0, 0⟩)
  else
    match embed with
    | Except.error e => (Except.error e, ⟨1, 0, 0⟩)
    | Except.ok _ =>
      let chromaMs :=
        (if searchTier0 && tierOk tier0Query then chroma0Ms else 0) +
        (if searchTier1 && tierOk tier1Query then chroma1Ms else 0)
      let calls : CallCounts :=
        ⟨1, (if searchTier0 && tier0Query.isSome then 1 else 0) +
            (if searchTier1 && tier1Query.isSome then 1 else 0), 0⟩
      (Except.ok (mergedLocal searchTier0 searchTier1 tier0Query tier1Query
        maxMemories, localLatency embedMs chromaMs), calls)

/-- One entry of the top_memories_preview list (lines 485-491). -/
structure PreviewEntry where
  content : String
  score : ℚ

/-- m[content][:100] if m[content] else "(No content)" (line 487). -/
def previewContent : Option String → String
  | none => "(No content)"
  | some s => if s = "" then ("(No content)") else String.mk (s.data.take 100)

/-- One search_history entry (lines 476-492); the timestamp-derived id and
the echoed agentic flag are omitted as they never influence control flow. -/
structure SearchEntry where
  query : String
  result_count : Nat
  latency : LatencyBreakdown
  top_score : ℚ
  top_memories_preview : List PreviewEntry

/-- Builds the history entry of a completed search (lines 476-492). -/
def mkSearchEntry (q : String) (ms : List MemoryRecord)
    (lat : LatencyBreakdown) : SearchEntry :=
  { query := q
    result_count := ms.length
    latency := lat
    top_score := match ms with
      | [] => 0
      | m :: _ => m.query_similarity
    top_memories_preview := (ms.take 3).map
      (fun m => ⟨previewContent m.content, m.query_similarity⟩) }

/-- deque(maxlen=30) append (line 45): the new entry is appended and, past
capacity 30, the oldest entries are evicted. -/
def histAppend (h : List SearchEntry) (e : SearchEntry) : List SearchEntry :=
  let h2 := h ++ [e]
  h2.drop (h2.length - 30)

/-- Module-level mutable state of voice_server.py: the client and the cached
local handles (lines 93-95, 127-135) plus the search-history deque. -/
structure ServerState where
  paprClientInit : Bool
  embedderPresent : Bool
  collectionPresent : Bool
  tier1CollectionPresent : Bool
  history : List SearchEntry

/-- Environment of one request: the outcome each external capability would
produce if called, plus the wall-clock durations that would be measured. -/
structure Env where
  embed : Except String Unit
  tier0 : Except Unit (List Candidate)
  tier1 : Except Unit (List Candidate)
  remote : Except String (List RemoteMem)
  embedMs : ℚ
  chroma0Ms : ℚ
  chroma1Ms : ℚ
  preMs : ℚ
  sdkMs : ℚ
  midMs : ℚ
  tailMs : ℚ

/-- HTTP-level outcome of POST /api/search: the 500 for a missing client
(line 341), the 400 for a Pydantic validation failure (line 355), the
catch-all 500 (line 508), or a 200 with memories, latency and path flag. -/
inductive SearchResult where
  | notInitialized
  | invalidQuery
  | serverError (msg : String)
  | ok (memories : List MemoryRecord) (latency : LatencyBreakdown)
      (fastPath : Bool)

/-- The memories of a successful response, if any. -/
def SearchResult.memoriesOf : SearchResult → Option (List MemoryRecord)
  | SearchResult.ok ms _ _ => some ms
  | _ => none

/-- The path flag of a successful response (true = local fast path). -/
def SearchResult.pathOf : SearchResult → Option Bool
  | SearchResult.ok _ _ fast => some fast
  | _ => none

/-- The latency breakdown of a successful response, if any. -/
def SearchResult.latencyOf : SearchResult → Option LatencyBreakdown
  | SearchResult.ok _ lat _ => some lat
  | _ => none

/-- The memories of a fast-path attempt, if it succeeded. -/
def localOk : Except String (List MemoryRecord × LatencyBreakdown) →
    Option (List MemoryRecord)
  | Except.ok (ms, _) => some ms
  | _ => none

/-- Result, post-state and call counters of one request. -/
structure SearchStep where
  result : SearchResult
  state : ServerState
  calls : CallCounts

/-- Pydantic validation of SearchMemoryToolParams: query is a string with
min_length = 1 (tool_schemas.py lines 19-31). -/
def queryValid (q : String) : Bool := decide (1 ≤ q.length)

/-- Completion of a successful search: append the summary entry to the
bounded history (line 493) and return the 200 payload (lines 495-502). -/
def finishSearch (st : ServerState) (q : String) (ms : List MemoryRecord)
    (lat : LatencyBreakdown) (fast : Bool) (calls : CallCounts) : SearchStep :=
  ⟨SearchResult.ok ms lat fast,
   { st with history := histAppend st.history (mkSearchEntry q ms lat) },
   calls⟩

/-- Bump the remote-call counter. -/
def addRemoteCall (c : CallCounts) : CallCounts :=
  { c with remoteCalls := c.remoteCalls + 1 }

/-- The remote fallback leg (lines 375-447): one SDK search call; an
exception there reaches the catch-all handler (line 504) and becomes a 500;
a response is normalized memory by memory (lines 397-436). -/
def remotePhase (st : ServerState) (env : Env) (q : String)
    (calls : CallCounts) : SearchStep :=
  match env.remote with
  | Except.error e => ⟨SearchResult.serverError e, st, addRemoteCall calls⟩
  | Except.ok rms =>
    finishSearch st q (rms.map normalizeRemoteMem)
      (remoteLatency env.preMs env.sdkMs env.midMs env.tailMs) false
      (addRemoteCall calls)

/-- search_memories, the POST /api/search handler (lines 337-508):
client check, Pydantic validation, then fast path when both cached handles
are set (line 364) with fallback to the SDK on a fast-path exception
(lines 368-374), otherwise the SDK path directly. -/
def searchMemories (st : ServerState) (env : Env) (q : String)
    (maxMemories : Nat) : SearchStep :=
  if st.paprClientInit = false then
    ⟨SearchResult.notInitialized, st, ⟨0, 0, 0⟩⟩
  else if queryValid q = false then
    ⟨SearchResult.invalidQuery, st, ⟨0, 0, 0⟩⟩
  else if st.embedderPresent && st.collectionPresent then
    match performLocal st.embedderPresent env.embed true true
        (if st.collectionPresent then some env.tier0 else none)
        (if st.tier1CollectionPresent then some env.tier1 else none)
        env.embedMs env.chroma0Ms env.chroma1Ms maxMemories with
    | (Except.ok (ms, lat), calls) => finishSearch st q ms lat true calls
    | (Except.error _, calls) => remotePhase st env q calls
  else remotePhase st env q ⟨0, 0, 0⟩

/-- GET /api/search-history (lines 181-202): the retained entries and their
count. -/
def getSearchHistory (st : ServerState) : List SearchEntry × Nat :=
  (st.history, st.history.length)

/-- The fast path is ready iff both cached handles are set (line 364). -/
def fastPathReady (st : ServerState) : Bool :=
  st.embedderPresent && st.collectionPresent

/-- Output records in non-increasing query_similarity order. -/
def sortedDesc (ms : List MemoryRecord) : Prop :=
  List.Pairwise (fun a b => b.query_similarity ≤ a.query_similarity) ms

/-! Concrete states, environments and inputs used by witness and
counterexample runs. -/

/-- A fully initialized server with empty history. -/
def readySt : ServerState := ⟨true, true, true, true, []⟩

/-- A healthy environment whose collections and remote response are empty. -/
def envAllEmpty : Env :=
  ⟨Except.ok (), Except.ok [], Except.ok [], Except.ok [], 0, 0, 0, 0, 0, 0, 0⟩

/-- An environment where the embedder works but both tier queries raise. -/
def envTiersFail : Env :=
  ⟨Except.ok (), Except.error (), Except.error (), Except.ok [],
   0, 0, 0, 0, 0, 0, 0⟩

/-- An environment whose embedder raises on every call. -/
def envEmbedFail : Env :=
  ⟨Except.error ("embedder crash"), Except.ok [], Except.ok [], Except.ok [],
   0, 0, 0, 0, 0, 0, 0⟩

/-- A plain tier1 candidate with an in-range distance. -/
def plainCand : Candidate :=
  ⟨some ("doc text"), none, none, [], [], some (1/4), "w1"⟩

/-- A tier0 candidate with no document and no content-bearing metadata. -/
def noContentCand : Candidate := ⟨none, none, none, [], [], some (1/2), "m1"⟩

/-- An environment whose tier0 collection returns only noContentCand. -/
def envNoContent : Env :=
  ⟨Except.ok (), Except.ok [noContentCand], Except.ok [], Except.ok [],
   0, 0, 0, 0, 0, 0, 0⟩

/-- A remote memory whose content is the literal string None. -/
def noneStringMem : RemoteMem :=
  ⟨none, some (1/2), some ("None"), none, none, none, "r1"⟩

/-- A tier0 candidate whose reported distance is 2 (cosine distances range
over [0, 2]). -/
def farCand : Candidate :=
  ⟨some ("far doc"), none, none, [], [], some 2, "m2"⟩

/-- An environment whose tier0 collection returns only farCand. -/
def envFar : Env :=
  ⟨Except.ok (), Except.ok [farCand], Except.ok [], Except.ok [],
   0, 0, 0, 0, 0, 0, 0⟩

/-- A tier0 candidate whose reported distance is null (None). -/
def nullDistCand : Candidate :=
  ⟨some ("null doc"), none, none, [], [], none, "m0"⟩

/-- Tier0 returns the null-distance candidate followed by a distance-2
candidate. -/
def envNullFar : Env :=
  ⟨Except.ok (), Except.ok [nullDistCand, farCand], Except.ok [],
   Except.ok [], 0, 0, 0, 0, 0, 0, 0⟩

/-- Running the server history from empty over a sequence of entries. -/
def runHistory (entries : List SearchEntry) : List SearchEntry :=
  entries.foldl histAppend []

/-- A server state holding a given history. -/
def stateWithHistory (h : List SearchEntry) : ServerState :=
  ⟨true, true, true, true, h⟩

/-- The history entry used by concrete runs. -/
def dummyEntry : SearchEntry := ⟨"q", 0, localLatency 0 0, 0, []⟩

/-! General lemmas about the comparator, the merge, the history buffer and
the rounding function. -/

theorem simDesc_trans : ∀ (a b c : MemoryRecord),
    simDesc a b = true → simDesc b c = true → simDesc a c = true := by
  intro a b c h1 h2
  simp only [simDesc, decide_eq_true_eq] at h1 h2 ⊢
  exact le_trans h2 h1

theorem simDesc_total : ∀ (a b : MemoryRecord),
    (simDesc a b || simDesc b a) = true := by
  intro a b
  simp only [simDesc, Bool.or_eq_true, decide_eq_true_eq]
  exact le_total b.query_similarity a.query_similarity

theorem sortedDesc_mergeSort (l : List MemoryRecord) :
    sortedDesc (l.mergeSort simDesc) :=
  (List.sorted_mergeSort simDesc_trans simDesc_total l).imp
    (by intro a b hab; simpa [simDesc] using hab)

theorem sortedDesc_sublist {ms ns : List MemoryRecord}
    (h : List.Sublist ms ns) (hs : sortedDesc ns) : sortedDesc ms :=
  List.Pairwise.sublist h hs

theorem mergedLocal_length_le (st0 st1 : Bool)
    (t0 t1 : Option (Except Unit (List Candidate))) (n : Nat) :
    (mergedLocal st0 st1 t0 t1 n).length ≤ n := by
  unfold mergedLocal
  simp

theorem mergedLocal_sorted (st0 st1 : Bool)
    (t0 t1 : Option (Except Unit (List Candidate))) (n : Nat) :
    sortedDesc (mergedLocal st0 st1 t0 t1 n) :=
  sortedDesc_sublist (List.take_sublist _ _) (sortedDesc_mergeSort _)

theorem performLocal_ok {ea : Bool} {emb : Except String Unit}
    {st0 st1 : Bool} {t0 t1 : Option (Except Unit (List Candidate))}
    {e c0 c1 : ℚ} {n : Nat} {ms : List MemoryRecord}
    {lat : LatencyBreakdown} {calls : CallCounts}
    (h : performLocal ea emb st0 st1 t0 t1 e c0 c1 n =
      (Except.ok (ms, lat), calls)) :
    ms = mergedLocal st0 st1 t0 t1 n := by
  unfold performLocal at h
  split at h
  · simp at h
  · split at h
    · simp at h
    · simp only [Prod.mk.injEq, Except.ok.injEq] at h
      exact h.1.1.symm

theorem localOk_eq {ea : Bool} {emb : Except String Unit} {st0 st1 : Bool}
    {t0 t1 : Option (Except Unit (List Candidate))} {e c0 c1 : ℚ} {n : Nat}
    {ms : List MemoryRecord}
    (h : localOk (performLocal ea emb st0 st1 t0 t1 e c0 c1 n).1 = some ms) :
    ms = mergedLocal st0 st1 t0 t1 n := by
  unfold performLocal at h
  split at h
  · simp [localOk] at h
  · split at h
    · simp [localOk] at h
    · simp only [localOk, Option.some.injEq] at h
      exact h.symm

theorem tier_of_mem_normalizeTier {r : MemoryRecord} {t : Nat}
    {cs : List Candidate} (h : r ∈ normalizeTier t cs) : r.tier = some t := by
  unfold normalizeTier at h
  obtain ⟨c, _, rfl⟩ := List.mem_map.mp h
  rfl

theorem mem_mergedLocal {r : MemoryRecord} {st0 st1 : Bool}
    {t0 t1 : Option (Except Unit (List Candidate))} {n : Nat}
    (h : r ∈ mergedLocal st0 st1 t0 t1 n) :
    (st0 = true ∧ r ∈ normalizeTier 0 (tierCandidates t0)) ∨
    (st1 = true ∧ r ∈ normalizeTier 1 (tierCandidates t1)) := by
  unfold mergedLocal at h
  have h2 := List.mem_mergeSort.mp (List.mem_of_mem_take h)
  rcases List.mem_append.mp h2 with h3 | h3
  · split at h3
    · rename_i hs
      exact Or.inl ⟨hs, h3⟩
    · exact absurd h3 (List.not_mem_nil r)
  · split at h3
    · rename_i hs
      exact Or.inr ⟨hs, h3⟩
    · exact absurd h3 (List.not_mem_nil r)

theorem histAppend_length_le (acc : List SearchEntry) (e : SearchEntry) :
    (histAppend acc e).length ≤ 30 := by
  simp [histAppend]
  omega

theorem foldl_histAppend (l : List SearchEntry) :
    ∀ (acc : List SearchEntry), acc.length ≤ 30 →
    l.foldl histAppend acc = (acc ++ l).drop (acc.length + l.length - 30) := by
  induction l with
  | nil =>
    intro acc h
    simp [Nat.sub_eq_zero_of_le h]
  | cons e l ih =>
    intro acc h
    rw [List.foldl_cons, ih _ (histAppend_length_le acc e)]
    have hlen : (acc ++ [e]).length = acc.length + 1 := by simp
    have hk : acc.length + 1 - 30 ≤ (acc ++ [e]).length := by
      rw [hlen]; omega
    simp only [histAppend, hlen]
    have hlen2 : ((acc ++ [e]).drop (acc.length + 1 - 30)).length =
        acc.length + 1 - (acc.length + 1 - 30) := by
      rw [List.length_drop, hlen]
    rw [hlen2, ← List.drop_append_of_le_length hk, List.drop_drop]
    have harr : (acc ++ [e]) ++ l = acc ++ e :: l := by simp
    rw [harr]
    congr 1
    simp only [List.length_cons]
    omega

theorem searchMemories_appends (st : ServerState) (env : Env) (q : String)
    (n : Nat) (ms : List MemoryRecord) (lat : LatencyBreakdown) (fast : Bool)
    (h : (searchMemories st env q n).result = SearchResult.ok ms lat fast) :
    (searchMemories st env q n).state.history =
      histAppend st.history (mkSearchEntry q ms lat) := by
  by_cases h1 : st.paprClientInit = false
  · simp [searchMemories, h1] at h
  · by_cases h2 : queryValid q = false
    · simp [searchMemories, h1, h2] at h
    · by_cases h3 : (st.embedderPresent && st.collectionPresent) = true
      · rcases hp : (performLocal st.embedderPresent env.embed true true
            (if st.collectionPresent then some env.tier0 else none)
            (if st.tier1CollectionPresent then some env.tier1 else none)
            env.embedMs env.chroma0Ms env.chroma1Ms n) with ⟨pres, pcalls⟩
        rcases pres with pmsg | ⟨pms, plat⟩
        · rcases hr : env.remote with rmsg | rms
          · simp [searchMemories, h1, h2, h3, hp, remotePhase, hr] at h
          · simp [searchMemories, h1, h2, h3, hp, remotePhase, hr,
              finishSearch] at h ⊢
            obtain ⟨hA, hB, hC⟩ := h
            subst hA
            subst hB
            rfl
        · simp [searchMemories, h1, h2, h3, hp, finishSearch] at h ⊢
          obtain ⟨hA, hB, hC⟩ := h
          subst hA
          subst hB
          rfl
      · rcases hr : env.remote with rmsg | rms
        · simp [searchMemories, h1, h2, h3, remotePhase, hr] at h
        · simp [searchMemories, h1, h2, h3, remotePhase, hr,
            finishSearch] at h ⊢
          obtain ⟨hA, hB, hC⟩ := h
          subst hA
          subst hB
          rfl

theorem round1_nonneg (x : ℚ) (hx : 0 ≤ x) : 0 ≤ round1 x := by
  have hn : (0:ℤ) ≤ ⌊10 * x⌋ := Int.floor_nonneg.mpr (by linarith)
  have hnq : (0:ℚ) ≤ ((⌊10 * x⌋ : ℤ) : ℚ) := by exact_mod_cast hn
  unfold round1
  split_ifs <;> (apply div_nonneg _ (by norm_num)) <;> push_cast <;> linarith

theorem round1_le (x : ℚ) : round1 x ≤ x + 1/20 := by
  have hfl : ((⌊10 * x⌋ : ℤ) : ℚ) ≤ 10 * x := Int.floor_le _
  have hfu : 10 * x < ((⌊10 * x⌋ : ℤ) : ℚ) + 1 := Int.lt_floor_add_one _
  unfold round1
  split_ifs with h1 h2 h3 <;> (rw [div_le_iff (by norm_num : (0:ℚ) < 10)]
    <;> push_cast <;> linarith)

theorem le_round1 (x : ℚ) : x - 1/20 ≤ round1 x := by
  have hfl : ((⌊10 * x⌋ : ℤ) : ℚ) ≤ 10 * x := Int.floor_le _
  have hfu : 10 * x < ((⌊10 * x⌋ : ℤ) : ℚ) + 1 := Int.lt_floor_add_one _
  unfold round1
  split_ifs with h1 h2 h3 <;> (rw [le_div_iff (by norm_num : (0:ℚ) < 10)]
    <;> push_cast <;> linarith)

/-! Claim theorems. -/

/-- C1: for every non-empty query and every limit, a successful search
response holds at most the limit records, sorted by non-increasing
query similarity: on the local fast path unconditionally, and on the remote
fallback path whenever the SDK response respects its contract of returning
at most the requested number of records ranked by similarity. -/
theorem search_limit_sorted (st : ServerState) (env : Env) (q : String)
    (n : Nat) (hq : 1 ≤ q.length)
    (hremote : ∀ rms, env.remote = Except.ok rms →
      (rms.map normalizeRemoteMem).length ≤ n ∧
      sortedDesc (rms.map normalizeRemoteMem))
    (ms : List MemoryRecord)
    (hms : (searchMemories st env q n).result.memoriesOf = some ms) :
    ms.length ≤ n ∧ sortedDesc ms := by
  unfold searchMemories at hms
  split at hms
  · simp [SearchResult.memoriesOf] at hms
  · split at hms
    · simp [SearchResult.memoriesOf] at hms
    · split at hms
      · split at hms
        · rename_i heq
          simp only [finishSearch, SearchResult.memoriesOf,
            Option.some.injEq] at hms
          subst hms
          rw [performLocal_ok heq]
          exact ⟨mergedLocal_length_le _ _ _ _ _, mergedLocal_sorted _ _ _ _ _⟩
        · rename_i calls0 heq
          unfold remotePhase at hms
          split at hms
          · simp [SearchResult.memoriesOf] at hms
          · rename_i rms hr
            simp only [finishSearch, SearchResult.memoriesOf,
              Option.some.injEq] at hms
            subst hms
            exact hremote rms hr
      · unfold remotePhase at hms
        split at hms
        · simp [SearchResult.memoriesOf] at hms
        · rename_i rms hr
          simp only [finishSearch, SearchResult.memoriesOf,
            Option.some.injEq] at hms
          subst hms
          exact hremote rms hr

/-- C1 witness at a concrete ready state and healthy empty environment. -/
theorem search_limit_sorted_witness :
    (searchMemories readySt envAllEmpty ("hi") 5).result.memoriesOf
      = some [] ∧
    ([] : List MemoryRecord).length ≤ 5 ∧ sortedDesc [] := by
  have hms : (searchMemories readySt envAllEmpty ("hi") 5).result.memoriesOf
      = some [] := by
    have hlen : ("hi").length ≠ 0 := by decide
    simp [searchMemories, readySt, envAllEmpty, queryValid, performLocal,
      mergedLocal, tierCandidates, normalizeTier, finishSearch,
      SearchResult.memoriesOf, hlen]
  refine ⟨hms, search_limit_sorted readySt envAllEmpty ("hi") 5 (by decide)
    ?_ [] hms⟩
  intro rms hr
  simp only [envAllEmpty, Except.ok.injEq] at hr
  subst hr
  simp [sortedDesc]

/-- C2 counterexample: with a healthy embedder and BOTH tier queries
raising, the request completes on the LOCAL fast path with an empty result
list and the remote capability is never called, contradicting the claim
that both tier queries failing causes a transition to the remote fallback
path. -/
theorem tier_failures_stay_local_cex :
    (searchMemories readySt envTiersFail ("query") 5).result.pathOf
      = some true ∧
    (searchMemories readySt envTiersFail ("query") 5).calls.remoteCalls
      = 0 ∧
    (searchMemories readySt envTiersFail ("query") 5).result.memoriesOf
      = some [] := by
  have hlen : ("query").length ≠ 0 := by decide
  refine ⟨?_, ?_, ?_⟩ <;>
    simp [searchMemories, readySt, envTiersFail, queryValid, performLocal,
      mergedLocal, tierCandidates, tierOk, finishSearch, SearchResult.pathOf,
      SearchResult.memoriesOf, hlen] <;>
    simp [normalizeTier]

/-- C2 amended: an exception escaping the local attempt (an embedder
failure) transitions to the remote fallback and is never surfaced; when the
remote path is healthy the request succeeds with the remote records,
labeled as the fallback path.  Per-tier query failures and unexpected
result shapes are absorbed inside the tier loop and do not trigger
fallback. -/
theorem embedder_failure_falls_back (st : ServerState) (env : Env)
    (q : String) (n : Nat) (msg : String) (rms : List RemoteMem)
    (hinit : st.paprClientInit = true) (hq : queryValid q = true)
    (hembed : env.embed = Except.error msg)
    (hremote : env.remote = Except.ok rms) :
    (searchMemories st env q n).result =
      SearchResult.ok (rms.map normalizeRemoteMem)
        (remoteLatency env.preMs env.sdkMs env.midMs env.tailMs) false ∧
    (remoteLatency env.preMs env.sdkMs env.midMs env.tailMs).note =
      "SDK search path (estimated embed/search split)" := by
  refine ⟨?_, rfl⟩
  unfold searchMemories
  rw [hinit]
  simp only [Bool.true_eq_false, if_false, hq, if_false]
  by_cases hfast : (st.embedderPresent && st.collectionPresent) = true
  · have hemb : st.embedderPresent = true := by
      revert hfast
      cases st.embedderPresent <;> simp
    simp only [hfast, if_true, hemb, performLocal, Bool.true_eq_false,
      if_false, hembed, remotePhase, hremote, finishSearch]
    split <;> rfl
  · simp [hfast, remotePhase, hremote, finishSearch]

/-- C2 witness: concrete run of the amended theorem with an embedder that
raises. -/
theorem embedder_failure_falls_back_witness :
    (searchMemories readySt envEmbedFail ("q") 3).result =
      SearchResult.ok [] (remoteLatency 0 0 0 0) false ∧
    (remoteLatency 0 0 0 0).note =
      "SDK search path (estimated embed/search split)" :=
  embedder_failure_falls_back readySt envEmbedFail ("q") 3
    ("embedder crash") [] rfl (by decide) rfl rfl

/-- C3 counterexample: a candidate with no content field and no
content-bearing metadata is mapped by the local merge to the sentinel
string "(No content)" — present content, not absent — which a successful
search returns to the caller. -/
theorem missing_content_sentinel_cex :
    (searchMemories readySt envNoContent ("q") 5).result.memoriesOf =
      some [normalizeCandidate 0 noContentCand] ∧
    (normalizeCandidate 0 noContentCand).content = some "(No content)" ∧
    (normalizeCandidate 0 noContentCand).content ≠ none := by
  have hlen : ("q").length ≠ 0 := by decide
  refine ⟨?_, rfl, by
    simp [normalizeCandidate, candidateContent, noContentCand, truthyStr]⟩
  simp [searchMemories, readySt, envNoContent, queryValid, performLocal,
    mergedLocal, tierCandidates, normalizeTier, finishSearch,
    SearchResult.memoriesOf, hlen]

/-- C3 amended: the LOCAL merge maps a candidate with no content field and
no content-bearing metadata to the fixed sentinel string "(No content)"
(never the literal "None"); only the REMOTE path maps missing, blank or
None-like content to absent content. -/
theorem missing_content_normalization (t : Nat) (c : Candidate)
    (m : RemoteMem) (s : String)
    (h1 : truthyStr c.doc = none) (h2 : truthyStr c.metaContent = none)
    (h3 : m.content = some s) (h4 : pyLower (pyStrip s) = "none") :
    (normalizeCandidate t c).content = some "(No content)" ∧
    (normalizeCandidate t c).content ≠ some "None" ∧
    (normalizeRemoteMem m).content = none ∧
    normalizeRemoteContent none = none := by
  have hcontent : candidateContent c = "(No content)" := by
    unfold candidateContent
    rw [h1, h2]
    rfl
  refine ⟨?_, ?_, ?_, rfl⟩
  · simp [normalizeCandidate, hcontent]
  · simp [normalizeCandidate, hcontent]
  · simp only [normalizeRemoteMem, normalizeRemoteContent, h3]
    by_cases h5 : pyStrip s = ""
    · simp [h5]
    · simp [h5, h4]

/-- C3 witness: concrete no-content candidate and None-string remote
memory. -/
theorem missing_content_normalization_witness :
    (normalizeCandidate 0 noContentCand).content = some "(No content)" ∧
    (normalizeCandidate 0 noContentCand).content ≠ some "None" ∧
    (normalizeRemoteMem noneStringMem).content = none ∧
    normalizeRemoteContent none = none :=
  missing_content_normalization 0 noContentCand noneStringMem ("None")
    rfl rfl rfl (by decide)

/-- C4 counterexample: a candidate at distance 2 is normalized to
querySimilarity = 1 - 2 = -1, outside [0,1]; no clamping is applied and the
out-of-range score is returned to the caller by a successful search. -/
theorem similarity_unclamped_cex :
    (searchMemories readySt envFar ("q") 5).result.memoriesOf =
      some [normalizeCandidate 0 farCand] ∧
    (normalizeCandidate 0 farCand).query_similarity = -1 ∧
    (normalizeCandidate 0 farCand).query_similarity < 0 := by
  have hlen : ("q").length ≠ 0 := by decide
  refine ⟨?_, ?_, ?_⟩
  · simp [searchMemories, readySt, envFar, queryValid, performLocal,
      mergedLocal, tierCandidates, normalizeTier, finishSearch,
      SearchResult.memoriesOf, hlen]
  · norm_num [normalizeCandidate, querySimilarityOfDist, farCand]
  · norm_num [normalizeCandidate, querySimilarityOfDist, farCand]

/-- C4 amended: querySimilarity is exactly 1 - distance when a distance is
reported, with no clamping: it lies in [0,1] precisely when the distance
does. -/
theorem similarity_formula (t : Nat) (c : Candidate) (d : ℚ)
    (hd : c.dist = some d) :
    (normalizeCandidate t c).query_similarity = 1 - d ∧
    ((0 ≤ (normalizeCandidate t c).query_similarity ∧
      (normalizeCandidate t c).query_similarity ≤ 1) ↔ (0 ≤ d ∧ d ≤ 1)) := by
  have hsim : (normalizeCandidate t c).query_similarity = 1 - d := by
    simp [normalizeCandidate, querySimilarityOfDist, hd]
  refine ⟨hsim, ?_⟩
  rw [hsim]
  constructor <;> rintro ⟨ha, hb⟩ <;> constructor <;> linarith

/-- C4 witness: the formula at a concrete in-range distance. -/
theorem similarity_formula_witness :
    (normalizeCandidate 1 plainCand).query_similarity = 1 - 1/4 ∧
    ((0 ≤ (normalizeCandidate 1 plainCand).query_similarity ∧
      (normalizeCandidate 1 plainCand).query_similarity ≤ 1) ↔
      (0 ≤ (1/4 : ℚ) ∧ (1/4 : ℚ) ≤ 1)) :=
  similarity_formula 1 plainCand (1/4) rfl

/-- C5: in the local merge every output record carries the tier tag of the
collection that produced it; with searchTier0 = false no Tier0 record
appears; remote-path records carry no tier tag at all. -/
theorem tier_tags_consistent (emb : Except String Unit) (st0 st1 : Bool)
    (t0 t1 : Option (Except Unit (List Candidate)))
    (e c0 c1 : ℚ) (n : Nat) (ms : List MemoryRecord)
    (h : localOk (performLocal true emb st0 st1 t0 t1 e c0 c1 n).1
      = some ms) :
    (∀ r ∈ ms,
      (r.tier = some 0 ∧ r ∈ normalizeTier 0 (tierCandidates t0)) ∨
      (r.tier = some 1 ∧ r ∈ normalizeTier 1 (tierCandidates t1))) ∧
    (st0 = false → ∀ r ∈ ms, r.tier ≠ some 0) ∧
    (∀ (m : RemoteMem), (normalizeRemoteMem m).tier = none) := by
  have hform := localOk_eq h
  subst hform
  refine ⟨?_, ?_, fun m => rfl⟩
  · intro r hr
    rcases mem_mergedLocal hr with ⟨_, h3⟩ | ⟨_, h3⟩
    · exact Or.inl ⟨tier_of_mem_normalizeTier h3, h3⟩
    · exact Or.inr ⟨tier_of_mem_normalizeTier h3, h3⟩
  · intro hst0 r hr
    rcases mem_mergedLocal hr with ⟨h2, _⟩ | ⟨_, h3⟩
    · rw [hst0] at h2; exact absurd h2 (by simp)
    · rw [tier_of_mem_normalizeTier h3]; simp

/-- C5 witness: a concrete merge with searchTier0 = false. -/
theorem tier_tags_consistent_witness :
    (localOk (performLocal true (Except.ok ()) false true none
        (some (Except.ok [plainCand])) 0 0 0 5).1
      = some [normalizeCandidate 1 plainCand]) ∧
    ((∀ r ∈ [normalizeCandidate 1 plainCand],
      (r.tier = some 0 ∧ r ∈ normalizeTier 0 (tierCandidates none)) ∨
      (r.tier = some 1 ∧
        r ∈ normalizeTier 1 (tierCandidates (some (Except.ok [plainCand]))))) ∧
    (false = false → ∀ r ∈ [normalizeCandidate 1 plainCand],
      r.tier ≠ some 0) ∧
    (∀ (m : RemoteMem), (normalizeRemoteMem m).tier = none)) := by
  have h : localOk (performLocal true (Except.ok ()) false true none
      (some (Except.ok [plainCand])) 0 0 0 5).1
      = some [normalizeCandidate 1 plainCand] := by
    simp [performLocal, localOk, mergedLocal, tierCandidates, normalizeTier]
  exact ⟨h, tier_tags_consistent (Except.ok ()) false true none
    (some (Except.ok [plainCand])) 0 0 0 5 _ h⟩

/-- C6: after more than 30 completed searches the history holds exactly 30
entries — the most recent ones in insertion order — and this is what
getSearchHistory reports; appending to a full history evicts exactly the
oldest entry (FIFO); every completed search appends exactly its own summary
entry to the history. -/
theorem history_capacity (entries : List SearchEntry)
    (h30 : 30 < entries.length) :
    (getSearchHistory (stateWithHistory (runHistory entries))).2 = 30 ∧
    (getSearchHistory (stateWithHistory (runHistory entries))).1 =
      entries.drop (entries.length - 30) ∧
    (∀ (hist : List SearchEntry) (e : SearchEntry), hist.length = 30 →
      histAppend hist e = hist.drop 1 ++ [e]) ∧
    (∀ (st : ServerState) (env : Env) (q : String) (n : Nat)
        (ms : List MemoryRecord) (lat : LatencyBreakdown) (fast : Bool),
      (searchMemories st env q n).result = SearchResult.ok ms lat fast →
      (searchMemories st env q n).state.history =
        histAppend st.history (mkSearchEntry q ms lat)) := by
  have hrun : runHistory entries = entries.drop (entries.length - 30) := by
    unfold runHistory
    rw [foldl_histAppend entries [] (by simp)]
    simp
  refine ⟨?_, ?_, ?_,
    fun st env q n ms lat fast h =>
      searchMemories_appends st env q n ms lat fast h⟩
  · have hfst : (getSearchHistory (stateWithHistory
        (runHistory entries))).2 = (runHistory entries).length := rfl
    rw [hfst, hrun, List.length_drop]
    omega
  · have hsnd : (getSearchHistory (stateWithHistory
        (runHistory entries))).1 = runHistory entries := rfl
    rw [hsnd, hrun]
  · intro hist e hfull
    show (hist ++ [e]).drop ((hist ++ [e]).length - 30) = hist.drop 1 ++ [e]
    have hside : (hist ++ [e]).length - 30 = 1 := by simp [hfull]
    have hone : 1 ≤ hist.length := by omega
    rw [hside, List.drop_append_of_le_length hone]

/-- C6 witness: 31 searches retain exactly the last 30 entries. -/
theorem history_capacity_witness :
    (getSearchHistory (stateWithHistory
      (runHistory (List.replicate 31 dummyEntry)))).2 = 30 ∧
    (getSearchHistory (stateWithHistory
      (runHistory (List.replicate 31 dummyEntry)))).1 =
      (List.replicate 31 dummyEntry).drop
        ((List.replicate 31 dummyEntry).length - 30) ∧
    (∀ (hist : List SearchEntry) (e : SearchEntry), hist.length = 30 →
      histAppend hist e = hist.drop 1 ++ [e]) ∧
    (∀ (st : ServerState) (env : Env) (q : String) (n : Nat)
        (ms : List MemoryRecord) (lat : LatencyBreakdown) (fast : Bool),
      (searchMemories st env q n).result = SearchResult.ok ms lat fast →
      (searchMemories st env q n).state.history =
        histAppend st.history (mkSearchEntry q ms lat)) :=
  history_capacity (List.replicate 31 dummyEntry) (by simp)

/-- C7: the empty query is rejected as InvalidQuery before any embedder,
collection or remote call is made, with no state mutation at all. -/
theorem empty_query_fail_fast (st : ServerState) (env : Env) (n : Nat)
    (hinit : st.paprClientInit = true) :
    (searchMemories st env ("") n).result = SearchResult.invalidQuery ∧
    (searchMemories st env ("") n).calls.embedderCalls = 0 ∧
    (searchMemories st env ("") n).calls.collectionCalls = 0 ∧
    (searchMemories st env ("") n).calls.remoteCalls = 0 ∧
    (searchMemories st env ("") n).state = st := by
  have hq : queryValid ("") = false := by decide
  refine ⟨?_, ?_, ?_, ?_, ?_⟩ <;> simp [searchMemories, hinit, hq]

/-- C7 witness: concrete empty-query request against a ready server. -/
theorem empty_query_fail_fast_witness :
    (searchMemories readySt envAllEmpty ("") 7).result =
      SearchResult.invalidQuery ∧
    (searchMemories readySt envAllEmpty ("") 7).calls.embedderCalls = 0 ∧
    (searchMemories readySt envAllEmpty ("") 7).calls.collectionCalls = 0 ∧
    (searchMemories readySt envAllEmpty ("") 7).calls.remoteCalls = 0 ∧
    (searchMemories readySt envAllEmpty ("") 7).state = readySt :=
  empty_query_fail_fast readySt envAllEmpty 7 rfl

/-- C8 amended: every latency figure on both paths is non-negative, and
embeddingMs + vectorSearchMs can exceed totalMs only by the one-decimal
rounding slack, bounded by 0.15 ms; before rounding the exact inequality
holds on both paths because the local total is the exact sum of the
measured legs and the remote 75/25 split sums to the SDK leg. -/
theorem latency_nonneg_bounds (e c pre sdk mid tail : ℚ)
    (he : 0 ≤ e) (hc : 0 ≤ c) (hpre : 0 ≤ pre) (hsdk : 0 ≤ sdk)
    (hmid : 0 ≤ mid) (htail : 0 ≤ tail) :
    (0 ≤ (localLatency e c).total_ms ∧
     0 ≤ (localLatency e c).embedding_generation_ms ∧
     0 ≤ (localLatency e c).chromadb_search_ms ∧
     0 ≤ (localLatency e c).processing_overhead_ms ∧
     (localLatency e c).embedding_generation_ms +
       (localLatency e c).chromadb_search_ms ≤
       (localLatency e c).total_ms + 3/20) ∧
    (0 ≤ (remoteLatency pre sdk mid tail).total_ms ∧
     0 ≤ (remoteLatency pre sdk mid tail).embedding_generation_ms ∧
     0 ≤ (remoteLatency pre sdk mid tail).chromadb_search_ms ∧
     0 ≤ (remoteLatency pre sdk mid tail).processing_overhead_ms ∧
     (remoteLatency pre sdk mid tail).embedding_generation_ms +
       (remoteLatency pre sdk mid tail).chromadb_search_ms ≤
       (remoteLatency pre sdk mid tail).total_ms + 3/20) := by
  simp only [localLatency, remoteLatency]
  have hsdk34 : (0:ℚ) ≤ sdk * (3/4) := by nlinarith
  have hsdk14 : (0:ℚ) ≤ sdk * (1/4) := by nlinarith
  refine ⟨⟨?_, ?_, ?_, le_refl 0, ?_⟩, ⟨?_, ?_, ?_, ?_, ?_⟩⟩
  · exact round1_nonneg _ (by linarith)
  · exact round1_nonneg _ he
  · exact round1_nonneg _ hc
  · have b1 := round1_le e
    have b2 := round1_le c
    have b3 := le_round1 (e + c)
    linarith
  · exact round1_nonneg _ (by linarith)
  · exact round1_nonneg _ hsdk34
  · exact round1_nonneg _ hsdk14
  · exact round1_nonneg _ (by linarith)
  · have b1 := round1_le (sdk * (3/4))
    have b2 := round1_le (sdk * (1/4))
    have b3 := le_round1 (pre + sdk + mid + tail)
    linarith

/-- C8 counterexample: with measured embed and Chroma times of 0.16 ms
each, rounding to one decimal yields embeddingMs = vectorSearchMs = 0.2
while totalMs = round(0.32) = 0.3, so totalMs < embeddingMs +
vectorSearchMs: the claimed inequality fails after rounding. -/
theorem latency_rounding_cex :
    (localLatency (4/25) (4/25)).total_ms <
      (localLatency (4/25) (4/25)).embedding_generation_ms +
      (localLatency (4/25) (4/25)).chromadb_search_ms ∧
    (localLatency (4/25) (4/25)).total_ms = 3/10 ∧
    (localLatency (4/25) (4/25)).embedding_generation_ms = 1/5 := by
  norm_num [localLatency, round1]

/-- C8 witness: the bounds at concrete measured durations. -/
theorem latency_nonneg_bounds_witness :
    (0 ≤ (localLatency 1 2).total_ms ∧
     0 ≤ (localLatency 1 2).embedding_generation_ms ∧
     0 ≤ (localLatency 1 2).chromadb_search_ms ∧
     0 ≤ (localLatency 1 2).processing_overhead_ms ∧
     (localLatency 1 2).embedding_generation_ms +
       (localLatency 1 2).chromadb_search_ms ≤
       (localLatency 1 2).total_ms + 3/20) ∧
    (0 ≤ (remoteLatency 1 4 1 1).total_ms ∧
     0 ≤ (remoteLatency 1 4 1 1).embedding_generation_ms ∧
     0 ≤ (remoteLatency 1 4 1 1).chromadb_search_ms ∧
     0 ≤ (remoteLatency 1 4 1 1).processing_overhead_ms ∧
     (remoteLatency 1 4 1 1).embedding_generation_ms +
       (remoteLatency 1 4 1 1).chromadb_search_ms ≤
       (remoteLatency 1 4 1 1).total_ms + 3/20) :=
  latency_nonneg_bounds 1 2 1 4 1 1 (by norm_num) (by norm_num)
    (by norm_num) (by norm_num) (by norm_num) (by norm_num)

/-- C9: a search request never mutates the cached embedder and collection
handles, so fast-path readiness is preserved verbatim by every request,
successful or failed: once ready, the server never becomes unready within a
process lifetime. -/
theorem readiness_monotone (st : ServerState) (env : Env) (q : String)
    (n : Nat) :
    (searchMemories st env q n).state.embedderPresent = st.embedderPresent ∧
    (searchMemories st env q n).state.collectionPresent =
      st.collectionPresent ∧
    fastPathReady (searchMemories st env q n).state = fastPathReady st := by
  unfold searchMemories
  split
  · exact ⟨rfl, rfl, rfl⟩
  · split
    · exact ⟨rfl, rfl, rfl⟩
    · split
      · split
        · simp [finishSearch, fastPathReady]
        · unfold remotePhase
          split
          · exact ⟨rfl, rfl, rfl⟩
          · simp [finishSearch, fastPathReady]
      · unfold remotePhase
        split
        · exact ⟨rfl, rfl, rfl⟩
        · simp [finishSearch, fastPathReady]

/-- C10 counterexample: the null-distance record (score 0.0) is kept but
sorts FIRST, not last, because the distance-2 record scores -1 < 0: the
sorted output is [null-distance record, far record]. -/
theorem null_distance_sorts_last_cex :
    (searchMemories readySt envNullFar ("q") 5).result.memoriesOf =
      some [normalizeCandidate 0 nullDistCand, normalizeCandidate 0 farCand] ∧
    (normalizeCandidate 0 nullDistCand).query_similarity = 0 ∧
    (normalizeCandidate 0 farCand).query_similarity < 0 := by
  have hlen : ("q").length ≠ 0 := by decide
  have hsorted : List.Pairwise (fun a b => simDesc a b = true)
      [normalizeCandidate 0 nullDistCand, normalizeCandidate 0 farCand] := by
    simp only [List.pairwise_cons, List.mem_singleton, forall_eq,
      List.not_mem_nil, false_implies, implies_true, and_true,
      List.Pairwise.nil]
    norm_num [simDesc, normalizeCandidate, querySimilarityOfDist,
      nullDistCand, farCand]
  have hms : ([normalizeCandidate 0 nullDistCand,
      normalizeCandidate 0 farCand].mergeSort simDesc) =
      [normalizeCandidate 0 nullDistCand, normalizeCandidate 0 farCand] :=
    List.mergeSort_of_sorted hsorted
  refine ⟨?_, ?_, ?_⟩
  · simp [searchMemories, readySt, envNullFar, queryValid, performLocal,
      mergedLocal, tierCandidates, normalizeTier, finishSearch,
      SearchResult.memoriesOf, hlen, hms]
  · norm_num [normalizeCandidate, querySimilarityOfDist, nullDistCand]
  · norm_num [normalizeCandidate, querySimilarityOfDist, farCand]

/-- C10 amended: a null-distance candidate is kept (not dropped, no error)
with querySimilarity 0.0 and, the output being sorted non-increasingly,
appears strictly after every record with positive querySimilarity; it need
not be last when some record scores negatively (distance above 1). -/
theorem null_distance_kept (t : Nat) (c : Candidate) (cs : List Candidate)
    (emb : Except String Unit) (st0 st1 : Bool)
    (t0 t1 : Option (Except Unit (List Candidate)))
    (e c0 c1 : ℚ) (n : Nat) (ms : List MemoryRecord)
    (hc : c ∈ cs) (hdist : c.dist = none)
    (hms : localOk (performLocal true emb st0 st1 t0 t1 e c0 c1 n).1
      = some ms) :
    (normalizeCandidate t c ∈ normalizeTier t cs ∧
     (normalizeCandidate t c).query_similarity = 0) ∧
    (∀ (i j : Nat) (hi : i < ms.length) (hj : j < ms.length),
      0 < (ms.get ⟨i, hi⟩).query_similarity →
      (ms.get ⟨j, hj⟩).query_similarity = 0 → i < j) := by
  constructor
  · constructor
    · exact List.mem_map.mpr ⟨c, hc, rfl⟩
    · simp [normalizeCandidate, querySimilarityOfDist, hdist]
  · have hform := localOk_eq hms
    subst hform
    have hsorted := mergedLocal_sorted st0 st1 t0 t1 n
    rw [sortedDesc, List.pairwise_iff_getElem] at hsorted
    intro i j hi hj hpos hzero
    by_contra hcon
    push_neg at hcon
    rcases Nat.lt_or_ge j i with hji | hij
    · have := hsorted j i hj hi hji
      simp only [List.get_eq_getElem] at hpos hzero
      rw [hzero] at this
      exact absurd (lt_of_lt_of_le hpos this) (lt_irrefl 0)
    · have hij2 : i = j := Nat.le_antisymm hij hcon
      subst hij2
      simp only [List.get_eq_getElem] at hpos hzero
      rw [hzero] at hpos
      exact absurd hpos (lt_irrefl 0)

/-- C10 witness: tier0 returning just the null-distance candidate. -/
theorem null_distance_kept_witness :
    ((normalizeCandidate 0 nullDistCand ∈
        normalizeTier 0 [nullDistCand] ∧
      (normalizeCandidate 0 nullDistCand).query_similarity = 0) ∧
    (∀ (i j : Nat)
        (hi : i < [normalizeCandidate 0 nullDistCand].length)
        (hj : j < [normalizeCandidate 0 nullDistCand].length),
      0 < ([normalizeCandidate 0 nullDistCand].get
        ⟨i, hi⟩).query_similarity →
      ([normalizeCandidate 0 nullDistCand].get
        ⟨j, hj⟩).query_similarity = 0 → i < j)) :=
  null_distance_kept 0 nullDistCand [nullDistCand] (Except.ok ()) true true
    (some (Except.ok [nullDistCand])) none 0 0 0 5
    [normalizeCandidate 0 nullDistCand] (by simp) rfl
    (by simp [performLocal, localOk, mergedLocal, tierCandidates,
      normalizeTier])

end PaprVoice
